import Mathlib

/-
Verification of the asset-canister core of the vrmarketplace repository
(src/backend/asset_canister/src/lib.rs).

The canister keeps three durable regions:
  * an asset map  (StableBTreeMap<u64, Asset>),
  * a single-entry id counter (StableBTreeMap<u8, u64>, key 0),
  * a file blob store (StableBTreeMap<String, Vec<u8>>).
We embed the state as a record of three partial maps, principals as
natural numbers with 0 as the anonymous principal, u64 arithmetic as
natural-number arithmetic modulo 2^64, and the wall clock as an explicit
argument (the source's external time() collaborator).  Each canister
entry point becomes a pure function from arguments and a pre-state to a
(result, post-state) pair; #[query] methods only read the state.
-/

namespace VRMarketplace

/-- Principals are opaque identities with decidable equality and one
distinguished anonymous element; we model them as naturals. -/
abbrev Principal := Nat

/-- The anonymous principal (Principal::anonymous() in the source). -/
def anonymousPrincipal : Principal := 0

/-- Raw file bytes (Vec<u8> in the source). -/
abbrev Bytes := List Nat

/-- u64 values wrap modulo 2^64. -/
def U64LIM : Nat := 2 ^ 64

/-- The Asset record, field for field as in the source. -/
structure Asset where
  id : Nat
  name : String
  description : String
  owner : Principal
  file_hash : String
  file_url : String
  file_type : String
  file_size : Nat
  price : Nat
  is_for_sale : Bool
  created_at : Nat
  updated_at : Nat
  category : String
  tags : List String
  preview_image_url : Option String
deriving DecidableEq, Repr

/-- The AssetInput payload supplied by callers of the upload entry points. -/
structure AssetInput where
  name : String
  description : String
  file_hash : String
  file_url : String
  file_type : String
  file_size : Nat
  price : Nat
  category : String
  tags : List String
  preview_image_url : Option String
deriving DecidableEq, Repr

/-- Insert into a partial map, replacing any previous binding
(StableBTreeMap::insert). -/
def mapInsert {κ α : Type} [DecidableEq κ] (m : κ → Option α) (k : κ) (v : α) :
    κ → Option α :=
  fun q => if q = k then some v else m q

/-- The canister's durable state: the three stable regions.
`counter` is the optional entry stored under key 0 of ASSET_ID_COUNTER. -/
structure State where
  assets : Nat → Option Asset
  counter : Option Nat
  files : String → Option Bytes

/-- The state of a freshly installed canister: all three regions empty. -/
def initState : State :=
  { assets := fun _ => none, counter := none, files := fun _ => none }

/-- get_next_asset_id: read the counter (0 if uninitialized), store
current + 1 (as a u64), return it. -/
def get_next_asset_id (s : State) : Nat × State :=
  let current_id := s.counter.getD 0
  let next_id := (current_id + 1) % U64LIM
  (next_id, { s with counter := some next_id })

/-- The Asset record built by upload_asset from its input. -/
def mkAsset (asset_id : Nat) (principal : Principal) (current_time : Nat)
    (asset_input : AssetInput) : Asset :=
  { id := asset_id
    name := asset_input.name
    description := asset_input.description
    owner := principal
    file_hash := asset_input.file_hash
    file_url := asset_input.file_url
    file_type := asset_input.file_type
    file_size := asset_input.file_size
    price := asset_input.price
    is_for_sale := false
    created_at := current_time
    updated_at := current_time
    category := asset_input.category
    tags := asset_input.tags
    preview_image_url := asset_input.preview_image_url }

/-- upload_asset entry point. -/
def upload_asset (principal : Principal) (now : Nat) (asset_input : AssetInput)
    (s : State) : Except String Asset × State :=
  if principal = anonymousPrincipal then
    (Except.error "Anonymous users cannot upload assets", s)
  else
    let p := get_next_asset_id s
    let asset := mkAsset p.1 principal now asset_input
    (Except.ok asset, { p.2 with assets := mapInsert p.2.assets p.1 asset })

/-- get_asset query. -/
def get_asset (s : State) (asset_id : Nat) : Option Asset :=
  s.assets asset_id

/-- update_asset_price entry point. -/
def update_asset_price (principal : Principal) (now : Nat) (asset_id : Nat)
    (new_price : Nat) (s : State) : Except String Asset × State :=
  match s.assets asset_id with
  | some asset =>
      if asset.owner ≠ principal then
        (Except.error "Only the owner can update the asset price", s)
      else
        let a := { asset with price := new_price, updated_at := now }
        (Except.ok a, { s with assets := mapInsert s.assets asset_id a })
  | none => (Except.error "Asset not found", s)

/-- set_asset_for_sale entry point. -/
def set_asset_for_sale (principal : Principal) (now : Nat) (asset_id : Nat)
    (for_sale : Bool) (s : State) : Except String Asset × State :=
  match s.assets asset_id with
  | some asset =>
      if asset.owner ≠ principal then
        (Except.error "Only the owner can change sale status", s)
      else
        let a := { asset with is_for_sale := for_sale, updated_at := now }
        (Except.ok a, { s with assets := mapInsert s.assets asset_id a })
  | none => (Except.error "Asset not found", s)

/-- transfer_asset_ownership entry point. -/
def transfer_asset_ownership (principal : Principal) (now : Nat) (asset_id : Nat)
    (new_owner : Principal) (s : State) : Except String Asset × State :=
  match s.assets asset_id with
  | some asset =>
      if asset.owner ≠ principal then
        (Except.error "Only the owner can transfer ownership", s)
      else
        let a := { asset with owner := new_owner, is_for_sale := false, updated_at := now }
        (Except.ok a, { s with assets := mapInsert s.assets asset_id a })
  | none => (Except.error "Asset not found", s)

/-- upload_file entry point. -/
def upload_file (principal : Principal) (file_hash : String) (file_data : Bytes)
    (s : State) : Except String String × State :=
  if principal = anonymousPrincipal then
    (Except.error "Anonymous users cannot upload files", s)
  else if (s.files file_hash).isSome then
    (Except.error "File already exists", s)
  else
    (Except.ok file_hash, { s with files := mapInsert s.files file_hash file_data })

/-- get_file query. -/
def get_file (s : State) (file_hash : String) : Option Bytes :=
  s.files file_hash

/-- upload_asset_with_file entry point: stores the blob unconditionally,
then creates the asset record with a synthesized canister:// URL. -/
def upload_asset_with_file (principal : Principal) (now : Nat)
    (asset_input : AssetInput) (file_data : Bytes) (s : State) :
    Except String Asset × State :=
  if principal = anonymousPrincipal then
    (Except.error "Anonymous users cannot upload assets", s)
  else
    let file_hash := asset_input.file_hash
    let s1 : State := { s with files := mapInsert s.files file_hash file_data }
    let p := get_next_asset_id s1
    let asset : Asset :=
      { mkAsset p.1 principal now asset_input with
        file_hash := file_hash
        file_url := "canister://" ++ file_hash }
    (Except.ok asset, { p.2 with assets := mapInsert p.2.assets p.1 asset })

/-- marketplace_transfer_asset entry point: the caller is read but never
checked (any caller is accepted as the marketplace intermediary). -/
def marketplace_transfer_asset (_marketplace_principal : Principal) (now : Nat)
    (asset_id : Nat) (seller buyer : Principal) (s : State) :
    Except String Asset × State :=
  match s.assets asset_id with
  | some asset =>
      if asset.owner ≠ seller then
        (Except.error "Seller is not the current owner of the asset", s)
      else if asset.is_for_sale = false then
        (Except.error "Asset is not for sale", s)
      else
        let a := { asset with owner := buyer, is_for_sale := false, updated_at := now }
        (Except.ok a, { s with assets := mapInsert s.assets asset_id a })
  | none => (Except.error "Asset not found", s)

/-- One invocation of any mutating entry point, with its arguments. -/
inductive Call where
  | uploadAsset (principal : Principal) (now : Nat) (input : AssetInput)
  | uploadAssetWithFile (principal : Principal) (now : Nat) (input : AssetInput)
      (file_data : Bytes)
  | uploadFile (principal : Principal) (file_hash : String) (file_data : Bytes)
  | updateAssetPrice (principal : Principal) (now : Nat) (asset_id : Nat)
      (new_price : Nat)
  | setAssetForSale (principal : Principal) (now : Nat) (asset_id : Nat)
      (for_sale : Bool)
  | transferAssetOwnership (principal : Principal) (now : Nat) (asset_id : Nat)
      (new_owner : Principal)
  | marketplaceTransferAsset (principal : Principal) (now : Nat) (asset_id : Nat)
      (seller buyer : Principal)

/-- The state transition of one mutating call (result discarded). -/
def stepCall (s : State) (c : Call) : State :=
  match c with
  | .uploadAsset principal now input => (upload_asset principal now input s).2
  | .uploadAssetWithFile principal now input fd =>
      (upload_asset_with_file principal now input fd s).2
  | .uploadFile principal fh fd => (upload_file principal fh fd s).2
  | .updateAssetPrice principal now id np => (update_asset_price principal now id np s).2
  | .setAssetForSale principal now id fl => (set_asset_for_sale principal now id fl s).2
  | .transferAssetOwnership principal now id no =>
      (transfer_asset_ownership principal now id no s).2
  | .marketplaceTransferAsset principal now id se bu =>
      (marketplace_transfer_asset principal now id se bu s).2

/-- States reachable from a fresh install by any sequence of mutating calls. -/
inductive Reachable : State → Prop where
  | init : Reachable initState
  | step {s : State} (c : Call) : Reachable s → Reachable (stepCall s c)

/-- One upload-type invocation: upload_asset or upload_asset_with_file. -/
inductive UploadCall where
  | plain (principal : Principal) (now : Nat) (input : AssetInput)
  | withFile (principal : Principal) (now : Nat) (input : AssetInput)
      (file_data : Bytes)

/-- The principal performing an upload-type invocation. -/
def UploadCall.caller : UploadCall → Principal
  | .plain p _ _ => p
  | .withFile p _ _ _ => p

/-- Run one upload-type invocation. -/
def runUpload (s : State) (c : UploadCall) : Except String Asset × State :=
  match c with
  | .plain p now input => upload_asset p now input s
  | .withFile p now input fd => upload_asset_with_file p now input fd s

/-- The asset IDs returned by the successful calls of a sequence of
upload-type invocations, executed in order from a starting state. -/
def uploadIds : State → List UploadCall → List Nat
  | _, [] => []
  | s, c :: cs =>
    match (runUpload s c).1 with
    | Except.ok a => a.id :: uploadIds (runUpload s c).2 cs
    | Except.error _ => uploadIds (runUpload s c).2 cs

/-- Key-field coherence of the asset map: every stored record's id field
equals the key it is stored under. -/
def AssetIdInv (s : State) : Prop :=
  ∀ k a, s.assets k = some a → a.id = k

/-- A sample upload input used by concrete witnesses. -/
def input0 : AssetInput :=
  { name := "a", description := "d", file_hash := "h", file_url := "u",
    file_type := "glb", file_size := 3, price := 5, category := "c",
    tags := ["t"], preview_image_url := none }

/-- The asset record created by uploading input0 as principal 1 at time 10. -/
def assetA : Asset := mkAsset 1 1 10 input0

/-- State after principal 1 uploads input0 at time 10. -/
def stateA : State := stepCall initState (Call.uploadAsset 1 10 input0)

/-- assetA after its owner lists it for sale at time 15. -/
def assetB : Asset := { assetA with is_for_sale := true, updated_at := 15 }

/-- stateA after the owner lists asset 1 for sale at time 15. -/
def stateB : State := stepCall stateA (Call.setAssetForSale 1 15 1 true)

/-- State after principal 1 stores blob [9] under hash "h". -/
def stateF : State := stepCall initState (Call.uploadFile 1 "h" [9])

/-- C8: upload_asset and upload_asset_with_file invoked by the anonymous
principal always fail with the unauthorized error and return the state
unchanged: the asset map, the id counter and the file store are all
untouched. -/
theorem c8_anonymous_upload_rejected (now : Nat) (asset_input : AssetInput)
    (file_data : Bytes) (s : State) :
    upload_asset anonymousPrincipal now asset_input s
      = (Except.error "Anonymous users cannot upload assets", s)
    ∧ upload_asset_with_file anonymousPrincipal now asset_input file_data s
      = (Except.error "Anonymous users cannot upload assets", s) := by
  constructor <;> simp [upload_asset, upload_asset_with_file]

/-- C2: if transfer_asset_ownership is called by the current owner of a
stored asset it succeeds; the stored record afterwards (as returned by
get_asset) has the new owner, is_for_sale forced to false whatever it was
before, and a refreshed updated_at, and the post-state differs from the
pre-state by exactly this one re-insertion (one mutation, no intermediate
stored state). -/
theorem c2_owner_transfer_resets_sale (principal now asset_id : Nat)
    (new_owner : Principal) (s : State) (a : Asset)
    (hget : get_asset s asset_id = some a) (hown : a.owner = principal) :
    transfer_asset_ownership principal now asset_id new_owner s
      = (Except.ok { a with owner := new_owner, is_for_sale := false, updated_at := now },
         { s with assets := mapInsert s.assets asset_id
                              { a with owner := new_owner, is_for_sale := false,
                                       updated_at := now } })
    ∧ get_asset (transfer_asset_ownership principal now asset_id new_owner s).2 asset_id
      = some { a with owner := new_owner, is_for_sale := false, updated_at := now }
    ∧ ({ a with owner := new_owner, is_for_sale := false, updated_at := now } : Asset).owner
      = new_owner
    ∧ ({ a with owner := new_owner, is_for_sale := false, updated_at := now } : Asset).is_for_sale
      = false := by
  have hga : s.assets asset_id = some a := hget
  refine ⟨?_, ?_, rfl, rfl⟩
  · simp [transfer_asset_ownership, hga, hown]
  · simp [transfer_asset_ownership, hga, hown, get_asset, mapInsert]

/-- C2 witness: principal 1 transfers its asset 1 to principal 2 in stateA. -/
theorem c2_witness :
    get_asset (transfer_asset_ownership 1 20 1 2 stateA).2 1
      = some { assetA with owner := 2, is_for_sale := false, updated_at := 20 } :=
  (c2_owner_transfer_resets_sale 1 20 1 2 stateA assetA (by decide) (by decide)).2.1

/-- C4: for a stored asset and a caller who is not its owner,
update_asset_price, set_asset_for_sale and transfer_asset_ownership all
fail with the owner-gate error and return the pre-state itself, so the
record and the whole store are unchanged. -/
theorem c4_non_owner_mutations_forbidden (principal now asset_id : Nat)
    (s : State) (a : Asset) (hget : get_asset s asset_id = some a)
    (hown : a.owner ≠ principal) :
    (∀ new_price, update_asset_price principal now asset_id new_price s
        = (Except.error "Only the owner can update the asset price", s))
    ∧ (∀ for_sale, set_asset_for_sale principal now asset_id for_sale s
        = (Except.error "Only the owner can change sale status", s))
    ∧ (∀ new_owner, transfer_asset_ownership principal now asset_id new_owner s
        = (Except.error "Only the owner can transfer ownership", s)) := by
  have hga : s.assets asset_id = some a := hget
  refine ⟨fun np => ?_, fun fl => ?_, fun no => ?_⟩ <;>
    simp [update_asset_price, set_asset_for_sale, transfer_asset_ownership, hga, hown]

/-- C4 witness: principal 2 (not the owner) fails to reprice asset 1 of
stateA and the state is unchanged. -/
theorem c4_witness :
    update_asset_price 2 30 1 99 stateA
      = (Except.error "Only the owner can update the asset price", stateA) :=
  (c4_non_owner_mutations_forbidden 2 30 1 stateA assetA (by decide) (by decide)).1 99

/-- C3: marketplace_transfer_asset fails with the not-found error when the
id is absent; with the invalid-seller error when the stored owner differs
from the claimed seller (even if the asset is for sale); with the
not-for-sale error when the asset is not listed (even when the seller is
the true owner); otherwise it succeeds, setting owner to the buyer,
clearing is_for_sale and refreshing updated_at; and the result never
depends on which principal makes the call. -/
theorem c3_marketplace_transfer_cases (cal now asset_id : Nat)
    (seller buyer : Principal) (s : State) :
    (s.assets asset_id = none →
      marketplace_transfer_asset cal now asset_id seller buyer s
        = (Except.error "Asset not found", s))
    ∧ (∀ a, s.assets asset_id = some a → a.owner ≠ seller →
      marketplace_transfer_asset cal now asset_id seller buyer s
        = (Except.error "Seller is not the current owner of the asset", s))
    ∧ (∀ a, s.assets asset_id = some a → a.owner = seller → a.is_for_sale = false →
      marketplace_transfer_asset cal now asset_id seller buyer s
        = (Except.error "Asset is not for sale", s))
    ∧ (∀ a, s.assets asset_id = some a → a.owner = seller → a.is_for_sale = true →
      marketplace_transfer_asset cal now asset_id seller buyer s
        = (Except.ok { a with owner := buyer, is_for_sale := false, updated_at := now },
           { s with assets := mapInsert s.assets asset_id
                                { a with owner := buyer, is_for_sale := false,
                                         updated_at := now } }))
    ∧ (∀ cal2, marketplace_transfer_asset cal2 now asset_id seller buyer s
        = marketplace_transfer_asset cal now asset_id seller buyer s) := by
  refine ⟨fun h0 => ?_, fun a ha how => ?_, fun a ha how hfs => ?_,
    fun a ha how hfs => ?_, fun cal2 => rfl⟩ <;>
    simp [marketplace_transfer_asset, *]

/-- C3 witness: the four branches at concrete states — absent id, wrong
seller, not for sale, and a successful sale in stateB. -/
theorem c3_witness :
    marketplace_transfer_asset 7 40 1 9 9 initState
      = (Except.error "Asset not found", initState)
    ∧ marketplace_transfer_asset 7 40 1 2 3 stateA
      = (Except.error "Seller is not the current owner of the asset", stateA)
    ∧ marketplace_transfer_asset 7 40 1 1 3 stateA
      = (Except.error "Asset is not for sale", stateA)
    ∧ (marketplace_transfer_asset 7 40 1 1 3 stateB).1
      = Except.ok { assetB with owner := 3, is_for_sale := false, updated_at := 40 } :=
  ⟨(c3_marketplace_transfer_cases 7 40 1 9 9 initState).1 (by decide),
   (c3_marketplace_transfer_cases 7 40 1 2 3 stateA).2.1 assetA (by decide) (by decide),
   (c3_marketplace_transfer_cases 7 40 1 1 3 stateA).2.2.1 assetA (by decide) (by decide)
     (by decide),
   congrArg Prod.fst ((c3_marketplace_transfer_cases 7 40 1 1 3 stateB).2.2.2.1 assetB
     (by decide) (by decide) (by decide))⟩

/-- C7: after a first upload_file under a fresh hash succeeds, a second
upload_file under the same hash with different bytes (by any
non-anonymous caller) fails with the already-exists error and leaves the
state unchanged, and get_file still returns the first payload. -/
theorem c7_upload_file_rejects_duplicate (p1 p2 : Principal) (fh : String)
    (b1 b2 : Bytes) (s : State) (h1 : p1 ≠ anonymousPrincipal)
    (h2 : p2 ≠ anonymousPrincipal) (_hne : b1 ≠ b2)
    (habsent : s.files fh = none) :
    (upload_file p1 fh b1 s).1 = Except.ok fh
    ∧ upload_file p2 fh b2 (upload_file p1 fh b1 s).2
        = (Except.error "File already exists", (upload_file p1 fh b1 s).2)
    ∧ get_file (upload_file p1 fh b1 s).2 fh = some b1 := by
  have hs1 : upload_file p1 fh b1 s
      = (Except.ok fh, { s with files := mapInsert s.files fh b1 }) := by
    simp [upload_file, h1, habsent]
  rw [hs1]
  refine ⟨rfl, ?_, ?_⟩
  · simp [upload_file, h2, mapInsert]
  · simp [get_file, mapInsert]

/-- C7 witness: hash "h", payloads [1] then [2], callers 1 and 2, from the
empty store. -/
theorem c7_witness :
    get_file (upload_file 1 "h" [1] initState).2 "h" = some [1] :=
  (c7_upload_file_rejects_duplicate 1 2 "h" [1] [2] initState (by decide) (by decide)
    (by decide) (by decide)).2.2

/-- C6: upload_asset_with_file by a non-anonymous caller always succeeds
(it never returns the already-exists rejection), stores the supplied
bytes under input.file_hash in the file store — silently overwriting
whatever was there — and the created record's file_url is
"canister://" ++ input.file_hash; the caller-supplied input.file_url is
ignored entirely: changing it does not change the result. -/
theorem c6_upload_asset_with_file_overwrites (principal now : Nat)
    (asset_input : AssetInput) (file_data : Bytes) (s : State)
    (h : principal ≠ anonymousPrincipal) :
    (∃ a, (upload_asset_with_file principal now asset_input file_data s).1
        = Except.ok a ∧ a.file_url = "canister://" ++ asset_input.file_hash)
    ∧ ((upload_asset_with_file principal now asset_input file_data s).2).files
        asset_input.file_hash = some file_data
    ∧ ∀ u, upload_asset_with_file principal now
          { asset_input with file_url := u } file_data s
        = upload_asset_with_file principal now asset_input file_data s := by
  refine ⟨⟨{ mkAsset ((s.counter.getD 0 + 1) % U64LIM) principal now asset_input with
              file_hash := asset_input.file_hash,
              file_url := "canister://" ++ asset_input.file_hash }, ?_, rfl⟩,
          ?_, fun u => ?_⟩ <;>
    simp [upload_asset_with_file, mkAsset, get_next_asset_id, mapInsert, h]

/-- C6 witness: uploading bytes [7] under the already-occupied hash "h" of
stateF succeeds and overwrites the stored blob. -/
theorem c6_witness :
    ((upload_asset_with_file 1 50 input0 [7] stateF).2).files "h" = some [7] :=
  (c6_upload_asset_with_file_overwrites 1 50 input0 [7] stateF (by decide)).2.1

/-- C9: every mutating entry point that returns an error returns the
pre-state itself: no durable region (asset map, id counter, file store)
has been written when any of the seven mutating operations fails. -/
theorem c9_error_implies_no_write :
    (∀ p now input s, (∃ e, (upload_asset p now input s).1 = Except.error e) →
      (upload_asset p now input s).2 = s)
    ∧ (∀ p now input fd s,
        (∃ e, (upload_asset_with_file p now input fd s).1 = Except.error e) →
      (upload_asset_with_file p now input fd s).2 = s)
    ∧ (∀ p fh fd s, (∃ e, (upload_file p fh fd s).1 = Except.error e) →
      (upload_file p fh fd s).2 = s)
    ∧ (∀ p now id np s, (∃ e, (update_asset_price p now id np s).1 = Except.error e) →
      (update_asset_price p now id np s).2 = s)
    ∧ (∀ p now id fl s, (∃ e, (set_asset_for_sale p now id fl s).1 = Except.error e) →
      (set_asset_for_sale p now id fl s).2 = s)
    ∧ (∀ p now id no s,
        (∃ e, (transfer_asset_ownership p now id no s).1 = Except.error e) →
      (transfer_asset_ownership p now id no s).2 = s)
    ∧ (∀ p now id se bu s,
        (∃ e, (marketplace_transfer_asset p now id se bu s).1 = Except.error e) →
      (marketplace_transfer_asset p now id se bu s).2 = s) := by
  refine ⟨?_, ?_, ?_, ?_, ?_, ?_, ?_⟩
  · intro p now input s he
    by_cases hp : p = anonymousPrincipal
    · simp [upload_asset, hp]
    · obtain ⟨e, he⟩ := he
      simp [upload_asset, hp] at he
  · intro p now input fd s he
    by_cases hp : p = anonymousPrincipal
    · simp [upload_asset_with_file, hp]
    · obtain ⟨e, he⟩ := he
      simp [upload_asset_with_file, hp] at he
  · intro p fh fd s he
    by_cases hp : p = anonymousPrincipal
    · simp [upload_file, hp]
    · by_cases hc : (s.files fh).isSome
      · simp [upload_file, hp, hc]
      · obtain ⟨e, he⟩ := he
        simp [upload_file, hp, hc] at he
  · intro p now id np s he
    rcases hm : s.assets id with _ | a
    · simp [update_asset_price, hm]
    · by_cases ho : a.owner ≠ p
      · simp [update_asset_price, hm, ho]
      · obtain ⟨e, he⟩ := he
        simp [update_asset_price, hm, ho] at he
  · intro p now id fl s he
    rcases hm : s.assets id with _ | a
    · simp [set_asset_for_sale, hm]
    · by_cases ho : a.owner ≠ p
      · simp [set_asset_for_sale, hm, ho]
      · obtain ⟨e, he⟩ := he
        simp [set_asset_for_sale, hm, ho] at he
  · intro p now id no s he
    rcases hm : s.assets id with _ | a
    · simp [transfer_asset_ownership, hm]
    · by_cases ho : a.owner ≠ p
      · simp [transfer_asset_ownership, hm, ho]
      · obtain ⟨e, he⟩ := he
        simp [transfer_asset_ownership, hm, ho] at he
  · intro p now id se bu s he
    rcases hm : s.assets id with _ | a
    · simp [marketplace_transfer_asset, hm]
    · by_cases ho : a.owner ≠ se
      · simp [marketplace_transfer_asset, hm, ho]
      · by_cases hf : a.is_for_sale = false
        · simp [marketplace_transfer_asset, hm, ho, hf]
        · obtain ⟨e, he⟩ := he
          simp [marketplace_transfer_asset, hm, ho, hf] at he

/-- C9 witness: the rejected anonymous upload writes nothing. -/
theorem c9_witness : (upload_asset anonymousPrincipal 0 input0 initState).2 = initState :=
  c9_error_implies_no_write.1 anonymousPrincipal 0 input0 initState
    ⟨"Anonymous users cannot upload assets", rfl⟩

/-- C5 counterexample: the claim that every operation writing to the blob
store rejects re-insertion under an existing hash is false —
upload_asset_with_file silently replaces the bytes stored under "h". -/
theorem c5_counterexample :
    get_file stateF "h" = some [9]
    ∧ get_file (upload_asset_with_file 1 50 input0 [7] stateF).2 "h" = some [7]
    ∧ some ([7] : Bytes) ≠ some ([9] : Bytes) :=
  ⟨by decide, by decide, by decide⟩

/-- C5 (amended): a blob stored under hash h is never changed by
upload_asset, upload_file, update_asset_price, set_asset_for_sale,
transfer_asset_ownership or marketplace_transfer_asset; upload_file by a
non-anonymous caller rejects re-insertion under h with the already-exists
error and no state change; but upload_asset_with_file is the exception:
called with input.file_hash = h it replaces the stored bytes with its own
payload. -/
theorem c5_blob_immutability_amended (s : State) (h : String) (b : Bytes)
    (hpresent : s.files h = some b) :
    (∀ p now input, ((upload_asset p now input s).2).files h = some b)
    ∧ (∀ p fh fd, ((upload_file p fh fd s).2).files h = some b)
    ∧ (∀ p fd, p ≠ anonymousPrincipal →
        upload_file p h fd s = (Except.error "File already exists", s))
    ∧ (∀ p now id np, ((update_asset_price p now id np s).2).files h = some b)
    ∧ (∀ p now id fl, ((set_asset_for_sale p now id fl s).2).files h = some b)
    ∧ (∀ p now id no, ((transfer_asset_ownership p now id no s).2).files h = some b)
    ∧ (∀ p now id se bu,
        ((marketplace_transfer_asset p now id se bu s).2).files h = some b)
    ∧ (∀ p now input fd, p ≠ anonymousPrincipal → input.file_hash = h →
        ((upload_asset_with_file p now input fd s).2).files h = some fd) := by
  refine ⟨?_, ?_, ?_, ?_, ?_, ?_, ?_, ?_⟩
  · intro p now input
    by_cases hp : p = anonymousPrincipal <;>
      simp [upload_asset, hp, get_next_asset_id, hpresent]
  · intro p fh fd
    by_cases hp : p = anonymousPrincipal
    · simp [upload_file, hp, hpresent]
    · by_cases hc : (s.files fh).isSome
      · simp [upload_file, hp, hc, hpresent]
      · have hfh : h ≠ fh := by
          intro he
          rw [← he, hpresent] at hc
          exact hc rfl
        simp [upload_file, hp, hc, mapInsert, hfh, hpresent]
  · intro p fd hp
    simp [upload_file, hp, hpresent]
  · intro p now id np
    rcases hm : s.assets id with _ | a
    · simp [update_asset_price, hm, hpresent]
    · by_cases ho : a.owner ≠ p <;> simp [update_asset_price, hm, ho, hpresent]
  · intro p now id fl
    rcases hm : s.assets id with _ | a
    · simp [set_asset_for_sale, hm, hpresent]
    · by_cases ho : a.owner ≠ p <;> simp [set_asset_for_sale, hm, ho, hpresent]
  · intro p now id no
    rcases hm : s.assets id with _ | a
    · simp [transfer_asset_ownership, hm, hpresent]
    · by_cases ho : a.owner ≠ p <;>
        simp [transfer_asset_ownership, hm, ho, hpresent]
  · intro p now id se bu
    rcases hm : s.assets id with _ | a
    · simp [marketplace_transfer_asset, hm, hpresent]
    · by_cases ho : a.owner ≠ se
      · simp [marketplace_transfer_asset, hm, ho, hpresent]
      · by_cases hf : a.is_for_sale = false <;>
          simp [marketplace_transfer_asset, hm, ho, hf, hpresent]
  · intro p now input fd hp hhash
    simp [upload_asset_with_file, hp, get_next_asset_id, mapInsert, hhash]

/-- C5 witness: with blob [9] stored under "h" in stateF, a price update
leaves the blob intact. -/
theorem c5_witness : ((update_asset_price 2 60 1 5 stateF).2).files "h" = some [9] :=
  (c5_blob_immutability_amended stateF "h" [9] (by decide)).2.2.2.1 2 60 1 5

/-- Inserting a record whose id field equals its key preserves key-field
coherence of the map. -/
theorem assetIdInv_mapInsert {m : Nat → Option Asset} {k q : Nat} {a b : Asset}
    (hm : ∀ k2 a2, m k2 = some a2 → a2.id = k2)
    (hq : mapInsert m k a q = some b) (ha : a.id = k) : b.id = q := by
  unfold mapInsert at hq
  by_cases hqk : q = k
  · subst hqk
    rw [if_pos rfl] at hq
    rw [← Option.some.inj hq]
    exact ha
  · rw [if_neg hqk] at hq
    exact hm q b hq

/-- Every mutating call preserves key-field coherence of the asset map. -/
theorem stepCall_preserves_assetIdInv (s : State) (c : Call) (h : AssetIdInv s) :
    AssetIdInv (stepCall s c) := by
  cases c with
  | uploadAsset p now input =>
      by_cases hp : p = anonymousPrincipal
      · simpa [stepCall, upload_asset, hp] using h
      · intro k a hk
        simp [stepCall, upload_asset, hp, get_next_asset_id] at hk
        exact assetIdInv_mapInsert h hk rfl
  | uploadAssetWithFile p now input fd =>
      by_cases hp : p = anonymousPrincipal
      · simpa [stepCall, upload_asset_with_file, hp] using h
      · intro k a hk
        simp [stepCall, upload_asset_with_file, hp, get_next_asset_id] at hk
        exact assetIdInv_mapInsert h hk rfl
  | uploadFile p fh fd =>
      intro k a hk
      apply h k a
      by_cases hp : p = anonymousPrincipal
      · simpa [stepCall, upload_file, hp] using hk
      · by_cases hc : (s.files fh).isSome
        · simpa [stepCall, upload_file, hp, hc] using hk
        · simpa [stepCall, upload_file, hp, hc] using hk
  | updateAssetPrice p now id np =>
      intro k a hk
      rcases hm : s.assets id with _ | a0
      · exact h k a (by simpa [stepCall, update_asset_price, hm] using hk)
      · by_cases ho : a0.owner ≠ p
        · exact h k a (by simpa [stepCall, update_asset_price, hm, ho] using hk)
        · have hk2 : mapInsert s.assets id
              { a0 with price := np, updated_at := now } k = some a := by
            simpa [stepCall, update_asset_price, hm, ho] using hk
          exact assetIdInv_mapInsert h hk2 (h id a0 hm)
  | setAssetForSale p now id fl =>
      intro k a hk
      rcases hm : s.assets id with _ | a0
      · exact h k a (by simpa [stepCall, set_asset_for_sale, hm] using hk)
      · by_cases ho : a0.owner ≠ p
        · exact h k a (by simpa [stepCall, set_asset_for_sale, hm, ho] using hk)
        · have hk2 : mapInsert s.assets id
              { a0 with is_for_sale := fl, updated_at := now } k = some a := by
            simpa [stepCall, set_asset_for_sale, hm, ho] using hk
          exact assetIdInv_mapInsert h hk2 (h id a0 hm)
  | transferAssetOwnership p now id no =>
      intro k a hk
      rcases hm : s.assets id with _ | a0
      · exact h k a (by simpa [stepCall, transfer_asset_ownership, hm] using hk)
      · by_cases ho : a0.owner ≠ p
        · exact h k a (by simpa [stepCall, transfer_asset_ownership, hm, ho] using hk)
        · have hk2 : mapInsert s.assets id
              { a0 with owner := no, is_for_sale := false, updated_at := now } k
              = some a := by
            simpa [stepCall, transfer_asset_ownership, hm, ho] using hk
          exact assetIdInv_mapInsert h hk2 (h id a0 hm)
  | marketplaceTransferAsset p now id se bu =>
      intro k a hk
      rcases hm : s.assets id with _ | a0
      · exact h k a (by simpa [stepCall, marketplace_transfer_asset, hm] using hk)
      · by_cases ho : a0.owner ≠ se
        · exact h k a
            (by simpa [stepCall, marketplace_transfer_asset, hm, ho] using hk)
        · by_cases hf : a0.is_for_sale = false
          · exact h k a
              (by simpa [stepCall, marketplace_transfer_asset, hm, ho, hf] using hk)
          · have hk2 : mapInsert s.assets id
                { a0 with owner := bu, is_for_sale := false, updated_at := now } k
                = some a := by
              simpa [stepCall, marketplace_transfer_asset, hm, ho, hf] using hk
            exact assetIdInv_mapInsert h hk2 (h id a0 hm)

/-- C10: in every reachable state every entry (k, a) of the asset map has
a.id = k, so whenever get_asset returns a record its id field equals the
requested id; every mutation writes the record back under its own id. -/
theorem c10_asset_map_key_coherence (s : State) (hs : Reachable s) :
    AssetIdInv s ∧ ∀ asset_id a, get_asset s asset_id = some a → a.id = asset_id := by
  have hinv : AssetIdInv s := by
    induction hs with
    | init => intro k a hk; simp [initState] at hk
    | step c _ ih => exact stepCall_preserves_assetIdInv _ c ih
  exact ⟨hinv, fun asset_id a hget => hinv asset_id a hget⟩

/-- C10 witness: stateA is reachable and its single record, fetched via
get_asset at key 1, carries id 1. -/
theorem c10_witness : Reachable stateA ∧ assetA.id = 1 := by
  have hr : Reachable stateA := Reachable.step (Call.uploadAsset 1 10 input0) Reachable.init
  exact ⟨hr, (c10_asset_map_key_coherence stateA hr).2 1 assetA (by decide)⟩

/-- Any upload-type call by a non-anonymous caller succeeds, returns an
asset whose id is the incremented counter, and stores that value back
into the counter region. -/
theorem runUpload_success (c : UploadCall) (s : State)
    (h : c.caller ≠ anonymousPrincipal) :
    (∃ a, (runUpload s c).1 = Except.ok a
       ∧ a.id = (s.counter.getD 0 + 1) % U64LIM)
    ∧ ((runUpload s c).2).counter = some ((s.counter.getD 0 + 1) % U64LIM) := by
  cases c with
  | plain p now input =>
      simp only [UploadCall.caller] at h
      refine ⟨⟨mkAsset ((s.counter.getD 0 + 1) % U64LIM) p now input, ?_, rfl⟩, ?_⟩ <;>
        simp [runUpload, upload_asset, get_next_asset_id, h]
  | withFile p now input fd =>
      simp only [UploadCall.caller] at h
      refine ⟨⟨{ mkAsset ((s.counter.getD 0 + 1) % U64LIM) p now input with
                  file_hash := input.file_hash,
                  file_url := "canister://" ++ input.file_hash }, ?_, rfl⟩, ?_⟩ <;>
        simp [runUpload, upload_asset_with_file, get_next_asset_id, h]

/-- As long as the counter does not exhaust the u64 range, a sequence of
upload-type calls by non-anonymous callers returns exactly the ids
c0 + 1, c0 + 2, ..., c0 + n, where c0 is the starting counter value. -/
theorem uploadIds_eq (cs : List UploadCall) : ∀ s : State,
    (∀ c ∈ cs, c.caller ≠ anonymousPrincipal) →
    s.counter.getD 0 + cs.length < U64LIM →
    uploadIds s cs
      = (List.range cs.length).map (fun i => s.counter.getD 0 + 1 + i) := by
  induction cs with
  | nil => intro s _ _; simp [uploadIds]
  | cons c cs ih =>
      intro s hc hb
      obtain ⟨⟨a, ha1, ha2⟩, hcnt⟩ :=
        runUpload_success c s (hc c (List.mem_cons_self c cs))
      have hlt : s.counter.getD 0 + 1 < U64LIM := by
        have h2 : s.counter.getD 0 + 1 ≤ s.counter.getD 0 + (c :: cs).length := by
          simp [List.length_cons]
        exact lt_of_le_of_lt h2 hb
      have hmod : (s.counter.getD 0 + 1) % U64LIM = s.counter.getD 0 + 1 :=
        Nat.mod_eq_of_lt hlt
      have hcnt2 : ((runUpload s c).2).counter.getD 0 = s.counter.getD 0 + 1 := by
        rw [hcnt, hmod]
        rfl
      have hrec := ih (runUpload s c).2
        (fun c2 hc2 => hc c2 (List.mem_cons_of_mem c hc2))
        (by
          rw [hcnt2]
          simp only [List.length_cons] at hb
          omega)
      simp only [uploadIds]
      rw [ha1]
      show a.id :: uploadIds (runUpload s c).2 cs
        = (List.range (c :: cs).length).map (fun i => s.counter.getD 0 + 1 + i)
      rw [List.length_cons, List.range_succ_eq_map, List.map_cons, List.map_map]
      congr 1
      · rw [ha2, hmod]
      · rw [hrec, hcnt2]
        refine List.map_congr_left ?_
        intro i _
        simp [Function.comp]
        omega

/-- C1: from any starting state whose counter does not exhaust the u64
range over the sequence, the asset ids returned by successful
upload_asset / upload_asset_with_file calls of non-anonymous callers are
strictly increasing and never repeated — they are exactly the consecutive
values counter + 1, ..., counter + n — and each allocation reads the
persisted counter (0 if uninitialized), stores the incremented value and
returns it. -/
theorem c1_upload_ids_strictly_increasing (s : State) (cs : List UploadCall)
    (hcallers : ∀ c ∈ cs, c.caller ≠ anonymousPrincipal)
    (hbound : s.counter.getD 0 + cs.length < U64LIM) :
    (uploadIds s cs).Pairwise (· < ·)
    ∧ (uploadIds s cs).Nodup
    ∧ uploadIds s cs = (List.range cs.length).map (fun i => s.counter.getD 0 + 1 + i)
    ∧ ∀ t : State, get_next_asset_id t
        = ((t.counter.getD 0 + 1) % U64LIM,
           { t with counter := some ((t.counter.getD 0 + 1) % U64LIM) }) := by
  have he := uploadIds_eq cs s hcallers hbound
  have hpw : (uploadIds s cs).Pairwise (· < ·) := by
    rw [he]
    refine List.Pairwise.map _ ?_ (List.pairwise_lt_range cs.length)
    intro a b hab
    omega
  exact ⟨hpw, hpw.imp (fun hab => Nat.ne_of_lt hab), he, fun t => rfl⟩

/-- C1 witness: two uploads (one plain, one with a file) from the fresh
state return ids [1, 2], strictly increasing and duplicate-free. -/
theorem c1_witness :
    uploadIds initState
        [UploadCall.plain 1 10 input0, UploadCall.withFile 2 20 input0 [1]] = [1, 2]
    ∧ (uploadIds initState
        [UploadCall.plain 1 10 input0, UploadCall.withFile 2 20 input0 [1]]).Nodup := by
  have h := c1_upload_ids_strictly_increasing initState
    [UploadCall.plain 1 10 input0, UploadCall.withFile 2 20 input0 [1]]
    (by decide) (by decide)
  exact ⟨h.2.2.1.trans (by decide), h.2.1⟩

end VRMarketplace
